import Mathlib

/-!
Shallow embedding of the ARVYAM landing-page core:
the consent-gated analytics tracker (`ARVYAMAnalytics`), the i18n
translation system (`loadStringbank` / `t`), the consent banner's
`saveConsent`, and the session-id generator.

Modelling conventions:
* JavaScript objects used as property bags become association lists
  `List (String × JVal)`; the object-spread `{a, ...props}` becomes list
  append (key lookup is first-match, so the base fields written first by
  the source win for lookup, and `field in payload` is key membership
  anywhere in the list).
* Reads of the environment (`new Date().toISOString()`, `Date.now()`,
  `window.location`, `document.referrer`, `crypto.getRandomValues`,
  `Math.random`) become explicit parameters of the operation that
  performs them.
* The delivery side effect (`send` pushing to `window.dataLayer` and
  firing a beacon) becomes an append to a `delivered` log in the state.
* Asynchronous completion of a fetch promise becomes explicit
  `resolveSuccess` / `resolveFailure` transitions on the loader state,
  and `await`ed load outcomes become `Option` parameters of `t`.
-/

namespace Arvyam

namespace Analytics

/-- JavaScript values appearing in analytics event property bags. -/
inductive JVal where
  | str (s : String)
  | num (n : Int)
  | bool (b : Bool)
  deriving DecidableEq, Repr

/-- A property bag (JS object literal), ordered as written. -/
abbrev Props := List (String × JVal)

/-- One entry of the `ANALYTICS_EVENTS` schema registry. -/
structure EventSchema where
  required : List String
  description : String
  deriving DecidableEq, Repr

/-- The `ANALYTICS_EVENTS` registry: required fields per event name. -/
def ANALYTICS_EVENTS : String → Option EventSchema
  | "prompt_submitted" => some ⟨["persona", "language", "prompt_length_chars", "session_id"],
      "User submits search query"⟩
  | "results_displayed" => some ⟨["persona", "language", "triad", "result_count", "session_id"],
      "Search results shown to user"⟩
  | "product_clicked" => some ⟨["persona", "sku_id", "card_position", "session_id"],
      "User selects a product card"⟩
  | "refine_submitted" => some ⟨["persona", "language", "refinement_length_chars", "turn_number",
      "session_id"], "User refines search results"⟩
  | "language_changed" => some ⟨["persona", "from_lang", "to_lang", "session_id"],
      "User switches interface language"⟩
  | "consent_updated" => some ⟨["persona", "analytics_enabled", "session_id"],
      "User changes cookie consent"⟩
  | "page_view" => some ⟨["persona", "page_path", "referrer", "session_id"],
      "Page load event"⟩
  | "session_ended" => some ⟨["persona", "session_duration_seconds", "ux_turns", "session_id"],
      "User session completed"⟩
  | _ => none

/-- `field in payload` for a JS object built by spreads: key membership. -/
def hasKey (p : Props) (k : String) : Bool :=
  p.any (fun kv => kv.1 == k)

/-- The payload built by `track`:
`{persona, event, timestamp, session_id, ...properties}`. -/
def mkPayload (persona eventName timestamp sessionId : String) (props : Props) : Props :=
  [("persona", JVal.str persona), ("event", JVal.str eventName),
   ("timestamp", JVal.str timestamp), ("session_id", JVal.str sessionId)] ++ props

/-- State of one `ARVYAMAnalytics` instance, plus the `delivered` log of
payloads pushed by `send` (dataLayer push / beacon). -/
structure AnalyticsState where
  persona : String
  language : String
  sessionId : String
  sessionStart : Nat
  uxTurns : Nat
  pagesViewed : Nat
  enabled : Bool
  eventQueue : List (String × Props)
  consentChecked : Bool
  delivered : List Props
  deriving DecidableEq, Repr

/-- The constructor `new ARVYAMAnalytics({language})`; `sessionId` and
`sessionStart` are the environment reads made there. -/
def mkAnalytics (language sessionId : String) (nowMs : Nat) : AnalyticsState :=
  { persona := "ARVY", language := language, sessionId := sessionId,
    sessionStart := nowMs, uxTurns := 0, pagesViewed := 1,
    enabled := false, eventQueue := [], consentChecked := false, delivered := [] }

/-- `send(payload)`: pushes the payload to the delivery channel. -/
def send (st : AnalyticsState) (payload : Props) : AnalyticsState :=
  { st with delivered := st.delivered ++ [payload] }

/-- `track(eventName, properties)`. `ts` is the `new Date().toISOString()`
read made while building the payload. -/
def track (st : AnalyticsState) (eventName : String) (props : Props) (ts : String) :
    AnalyticsState :=
  if !st.consentChecked then
    { st with eventQueue := st.eventQueue ++ [(eventName, props)] }
  else if !st.enabled then
    st
  else
    match ANALYTICS_EVENTS eventName with
    | none => st
    | some schema =>
      let payload := mkPayload st.persona eventName ts st.sessionId props
      if (schema.required.filter (fun f => !(hasKey payload f))).length > 0 then
        st
      else
        send st payload

/-- `init({consent})`: `consent` is `some b` when a consent object with
analytics flag `b` is passed, `none` when absent (so
`!!(consent && consent.analytics)` is `consent.getD false`).
`pagePath` / `referrer` are the `window.location.pathname` and sanitized
`document.referrer` reads for the initial `page_view`. -/
def init (st : AnalyticsState) (consent : Option Bool) (ts pagePath referrer : String) :
    AnalyticsState :=
  let st1 := { st with consentChecked := true, enabled := consent.getD false }
  let st2 :=
    if st1.enabled && !st1.eventQueue.isEmpty then
      let st' := st1.eventQueue.foldl (fun s e => track s e.1 e.2 ts) st1
      { st' with eventQueue := [] }
    else if !st1.enabled then
      { st1 with eventQueue := [] }
    else
      st1
  if st2.enabled then
    track st2 "page_view" [("page_path", JVal.str pagePath), ("referrer", JVal.str referrer)] ts
  else
    st2

/-- `setConsent(consent)`: `consent.getD false` is
`!!(consent && consent.analytics)`. -/
def setConsent (st : AnalyticsState) (consent : Option Bool) (ts : String) : AnalyticsState :=
  let wasEnabled := st.enabled
  let st1 := { st with enabled := consent.getD false, consentChecked := true }
  if st1.enabled then
    let st2 := track st1 "consent_updated" [("analytics_enabled", JVal.bool true)] ts
    if !wasEnabled && !st2.eventQueue.isEmpty then
      let st' := st2.eventQueue.foldl (fun s e => track s e.1 e.2 ts) st2
      { st' with eventQueue := [] }
    else
      st2
  else
    let st2 := { st1 with eventQueue := [] }
    if wasEnabled then
      send st2 [("persona", JVal.str st2.persona), ("event", JVal.str "consent_updated"),
        ("timestamp", JVal.str ts), ("session_id", JVal.str st2.sessionId),
        ("analytics_enabled", JVal.bool false)]
    else
      st2

/-- `endSession()`: `nowMs` is the `Date.now()` read. -/
def endSession (st : AnalyticsState) (nowMs : Nat) (ts : String) : AnalyticsState :=
  if !st.enabled then
    st
  else
    track st "session_ended"
      [("session_duration_seconds", JVal.num ((nowMs - st.sessionStart) / 1000)),
       ("pages_viewed", JVal.num st.pagesViewed),
       ("ux_turns", JVal.num st.uxTurns)] ts

/-- One externally triggered operation on the tracker, carrying the
environment reads it makes. -/
inductive AOp where
  | init (consent : Option Bool) (ts pagePath referrer : String)
  | setConsent (consent : Option Bool) (ts : String)
  | track (name : String) (props : Props) (ts : String)
  | endSession (nowMs : Nat) (ts : String)
  | incrementUXTurns
  | setLanguage (lang : String)
  deriving Repr

/-- Apply one operation. -/
def runOp (st : AnalyticsState) : AOp → AnalyticsState
  | .init c ts pp rf => init st c ts pp rf
  | .setConsent c ts => setConsent st c ts
  | .track n p ts => track st n p ts
  | .endSession now ts => endSession st now ts
  | .incrementUXTurns => { st with uxTurns := st.uxTurns + 1 }
  | .setLanguage l => { st with language := l }

/-- Run a sequence of operations. -/
def run (st : AnalyticsState) (ops : List AOp) : AnalyticsState :=
  ops.foldl runOp st

/-- A delivered payload is well-formed: it contains the persona, event,
timestamp and session id keys, its event name (the first `event` entry,
which `mkPayload` writes before the property spread) is registered in
`ANALYTICS_EVENTS`, and every schema-required field is present. -/
def deliveredValid (p : Props) : Bool :=
  hasKey p "persona" && hasKey p "event" && hasKey p "timestamp" && hasKey p "session_id" &&
    (match p.lookup "event" with
     | some (JVal.str n) =>
       match ANALYTICS_EVENTS n with
       | some schema => schema.required.all (fun f => hasKey p f)
       | none => false
     | _ => false)

/-- The payload `track` would deliver for `(name, props)` in a
consent-checked, enabled state — `none` when validation drops it. -/
def trackPayload (persona sessionId ts : String) (name : String) (props : Props) :
    Option Props :=
  match ANALYTICS_EVENTS name with
  | none => none
  | some schema =>
    let payload := mkPayload persona name ts sessionId props
    if (schema.required.filter (fun f => !(hasKey payload f))).length > 0 then
      none
    else
      some payload

/-- A `(name, props)` pair passes `track`'s schema validation (the
payload-independent part: base fields are always present). -/
def callValid (c : String × Props) : Bool :=
  match ANALYTICS_EVENTS c.1 with
  | none => false
  | some schema =>
    schema.required.all (fun f =>
      "persona" == f || "event" == f || "timestamp" == f || "session_id" == f || hasKey c.2 f)

/-- Reachable-state invariant of the tracker: once a consent decision has
been processed the pending queue is empty, and the tracker is never
enabled before a decision has been processed. -/
def QInv (st : AnalyticsState) : Prop :=
  (st.consentChecked = true → st.eventQueue = []) ∧
    (st.enabled = true → st.consentChecked = true)

/-- Every payload in the delivered log is well-formed. -/
def AllValid (st : AnalyticsState) : Prop :=
  ∀ p ∈ st.delivered, deliveredValid p = true

end Analytics

namespace I18n

/-- A JSON value inside a locale stringbank (strings and nested objects). -/
inductive BVal where
  | str (s : String)
  | obj (fields : List (String × BVal))

/-- Descend through nested mappings: `path.split('.').reduce((cur, k) => cur?.[k], obj)`.
A missing key, or indexing into a string, yields `undefined` (`none`). -/
def getNested : BVal → List String → Option BVal
  | v, [] => some v
  | BVal.obj fields, k :: rest =>
    match fields.lookup k with
    | some v => getNested v rest
    | none => none
  | BVal.str _, _ :: _ => none

/-- `path.split('.')` with a single-character separator: accumulate the
current segment, emit it at each dot and at the end. -/
def splitDotsAux : List Char → List Char → List String
  | [], acc => [String.mk acc.reverse]
  | c :: rest, acc =>
    if c = '.' then String.mk acc.reverse :: splitDotsAux rest []
    else splitDotsAux rest (c :: acc)

/-- `path.split('.')`. -/
def splitDots (s : String) : List String :=
  splitDotsAux s.data []

/-- `getNestedValue(obj, path)`. -/
def getNestedValue (obj : BVal) (path : String) : Option BVal :=
  getNested obj (splitDots path)

/-- A character matched by the regex class `\w`. -/
def isWordChar (c : Char) : Bool :=
  c.isAlphanum || c == '_'

/-- `template.replace(/\{(\w+)\}/g, ...)`: scan left to right; at a
brace-delimited word, substitute `vars[word]` when the key is present,
otherwise leave the placeholder verbatim. `fuel` bounds the recursion;
every step consumes at least one character, so the input length is
always enough fuel and the fuel-exhausted branch is unreachable. -/
def interpolateCharsCore (vars : List (String × String)) : Nat → List Char → List Char
  | 0, l => l
  | _ + 1, [] => []
  | fuel + 1, c :: rest =>
    if c = '{' then
      let word := rest.takeWhile isWordChar
      match rest.drop word.length with
      | '}' :: tail =>
        if word.isEmpty then
          c :: interpolateCharsCore vars fuel rest
        else
          match vars.lookup (String.mk word) with
          | some v => v.data ++ interpolateCharsCore vars fuel tail
          | none => (c :: word) ++ '}' :: interpolateCharsCore vars fuel tail
      | _ => c :: interpolateCharsCore vars fuel rest
    else
      c :: interpolateCharsCore vars fuel rest

/-- The replacement scanner at its sufficient fuel. -/
def interpolateChars (vars : List (String × String)) (l : List Char) : List Char :=
  interpolateCharsCore vars l.length l

/-- `interpolate(template, vars)`: a non-string template is returned
unchanged. -/
def interpolate (template : BVal) (vars : List (String × String)) : BVal :=
  match template with
  | BVal.str s => BVal.str (String.mk (interpolateChars vars s.data))
  | other => other

/-- `t(key, lang, vars)`. The two `await loadStringbank(...)` results are
passed as parameters: `none` models a rejected load (the fetch failed or
the payload was malformed), `some sb` a resolved bundle. A rejection of
either awaited load transfers control to the `catch`, which returns the
raw key. -/
def t (key lang : String) (vars : List (String × String))
    (langLoad : Option BVal) (enLoad : Option BVal) : BVal :=
  match langLoad with
  | none => BVal.str key
  | some stringbank =>
    match getNestedValue stringbank key with
    | some translation => interpolate translation vars
    | none =>
      if lang ≠ "en" then
        match enLoad with
        | none => BVal.str key
        | some englishStringbank =>
          match getNestedValue englishStringbank key with
          | some englishTranslation => interpolate englishTranslation vars
          | none => BVal.str key
      else
        BVal.str key

/-- State of the stringbank loader module: the `stringbankCache` map, the
key set of `loadingPromises`, and a log of fetches issued so far. -/
structure LoaderState where
  cache : String → Option BVal
  loading : String → Bool
  fetches : List String

/-- What a call to `loadStringbank` returns to its caller. -/
inductive LoadOutcome where
  | cached (b : BVal)
  | pendingExisting
  | fetchStarted

/-- `loadStringbank(lang)`: cached bundle first, then an existing in-flight
promise, else issue a new fetch and record the in-flight marker. -/
def loadStringbank (st : LoaderState) (lang : String) : LoadOutcome × LoaderState :=
  match st.cache lang with
  | some b => (.cached b, st)
  | none =>
    if st.loading lang then
      (.pendingExisting, st)
    else
      (.fetchStarted,
        { st with
          loading := fun l => if l == lang then true else st.loading l,
          fetches := st.fetches ++ [lang] })

/-- The in-flight fetch for `lang` fulfills with `data`:
`stringbankCache.set(lang, data); loadingPromises.delete(lang)`. -/
def resolveSuccess (st : LoaderState) (lang : String) (data : BVal) : LoaderState :=
  { st with
    cache := fun l => if l == lang then some data else st.cache l,
    loading := fun l => if l == lang then false else st.loading l }

/-- The in-flight fetch for `lang` rejects:
`loadingPromises.delete(lang)`; the cache is untouched. -/
def resolveFailure (st : LoaderState) (lang : String) : LoaderState :=
  { st with loading := fun l => if l == lang then false else st.loading l }

end I18n

namespace ConsentBanner

/-- The consent record built by `saveConsent`. -/
structure ConsentData where
  functional : Bool
  analytics : Bool
  timestamp : String
  deriving DecidableEq, Repr

/-- The observable effects of one `saveConsent` call. -/
structure SaveOutcome where
  record : ConsentData
  storedToLocalStorage : Bool
  cookieSet : Bool
  consentChangedDispatched : Bool
  onConsentChangeCalled : Bool
  deriving DecidableEq, Repr

/-- `ConsentBanner.saveConsent(consent)`. `analytics` is
`consent.analytics || false`, `now` the `new Date().toISOString()` read,
`hasCallback` whether `options.onConsentChange` is a function, and
`storageWriteFails` whether `localStorage.setItem` throws. The whole
body after building `consentData` sits in one `try` block whose `catch`
only logs, so a throwing storage write skips every later step. -/
def saveConsent (analytics : Bool) (now : String) (hasCallback : Bool)
    (storageWriteFails : Bool) : SaveOutcome :=
  let consentData : ConsentData := ⟨true, analytics, now⟩
  if storageWriteFails then
    { record := consentData, storedToLocalStorage := false, cookieSet := false,
      consentChangedDispatched := false, onConsentChangeCalled := false }
  else
    { record := consentData, storedToLocalStorage := true, cookieSet := true,
      consentChangedDispatched := true, onConsentChangeCalled := hasCallback }

end ConsentBanner

namespace Session

/-- One digit of JavaScript `Number.prototype.toString(36)`. -/
def base36Digit (n : Nat) : Char :=
  if n < 10 then Char.ofNat (48 + n) else Char.ofNat (97 + (n - 10))

/-- Base-36 digit expansion, most significant first; `fuel` bounds the
recursion and `n + 1` is always enough. -/
def natToBase36Core (fuel n : Nat) (acc : List Char) : List Char :=
  match fuel with
  | 0 => acc
  | fuel + 1 =>
    if n < 36 then
      base36Digit n :: acc
    else
      natToBase36Core fuel (n / 36) (base36Digit (n % 36) :: acc)

/-- `n.toString(36)` for an unsigned integer. -/
def natToBase36 (n : Nat) : String :=
  String.mk (natToBase36Core (n + 1) n [])

/-- `generateSessionId()`. `nowMs` is the `Date.now()` read. When
`window.crypto.getRandomValues` exists (`cryptoWords = some w`), the code
fills a `Uint32Array(2)` — the first two 32-bit words of the random
source — and concatenates their base-36 renderings after the timestamp.
Otherwise it falls back to `Math.random().toString(36).substr(2, 9)`,
modelled as the first nine base-36 fraction digits `randDigits 0 ..
randDigits 8` of the non-cryptographic random value. -/
def generateSessionId (nowMs : Nat) (cryptoWords : Option (Nat → Nat))
    (randDigits : Nat → Nat) : String :=
  match cryptoWords with
  | some w =>
    toString nowMs ++ "-" ++ natToBase36 (w 0 % 2 ^ 32) ++ natToBase36 (w 1 % 2 ^ 32)
  | none =>
    toString nowMs ++ "-" ++ String.mk ((List.range 9).map (fun i => base36Digit (randDigits i % 36)))

end Session

namespace Analytics

theorem hasKey_mkPayload (a n ts s : String) (p : Props) (f : String) :
    hasKey (mkPayload a n ts s p) f =
      ("persona" == f || "event" == f || "timestamp" == f || "session_id" == f ||
        hasKey p f) := by
  simp [hasKey, mkPayload, Bool.or_assoc]

theorem lookup_event_mkPayload (a n ts s : String) (p : Props) :
    (mkPayload a n ts s p).lookup "event" = some (JVal.str n) := by
  simp [mkPayload, List.lookup]

/-- `track` in an unchecked state only appends to the queue. -/
theorem track_unchecked (st : AnalyticsState) (n : String) (p : Props) (ts : String)
    (h : st.consentChecked = false) :
    track st n p ts = { st with eventQueue := st.eventQueue ++ [(n, p)] } := by
  unfold track
  rw [h]
  simp

/-- `track` in a checked state only (possibly) appends the validated
payload to the delivered log. -/
theorem track_checked (st : AnalyticsState) (n : String) (p : Props) (ts : String)
    (h : st.consentChecked = true) :
    track st n p ts =
      { st with delivered := st.delivered ++
          (if st.enabled then
            (trackPayload st.persona st.sessionId ts n p).toList
          else []) } := by
  obtain ⟨pe, la, si, ss, ux, pv, en, q, cc, d⟩ := st
  simp only at h
  subst h
  unfold track trackPayload
  cases en with
  | false => simp
  | true =>
    simp only [Bool.not_true, Bool.false_eq_true, if_false, if_true]
    cases hA : ANALYTICS_EVENTS n with
    | none => simp
    | some schema =>
      by_cases hf :
          (schema.required.filter
            (fun f => !(hasKey (mkPayload pe n ts si p) f))).length > 0
      · simp [hf]
      · simp [hf, send]

/-- Draining a queue through `track` in a checked, enabled state appends
exactly the validated payloads, in queue order. -/
theorem drain_foldl (ts : String) (q : List (String × Props)) (st : AnalyticsState)
    (h1 : st.consentChecked = true) (h2 : st.enabled = true) :
    q.foldl (fun s e => track s e.1 e.2 ts) st =
      { st with delivered := st.delivered ++
          q.filterMap (fun e => trackPayload st.persona st.sessionId ts e.1 e.2) } := by
  induction q generalizing st with
  | nil => simp
  | cons e q ih =>
    rw [List.foldl_cons, track_checked _ _ _ _ h1, h2]
    rw [ih _ (by simp [h1]) (by simp [h2])]
    cases hfe : trackPayload st.persona st.sessionId ts e.1 e.2 <;>
      simp [List.filterMap_cons, hfe]

/-- A sequence of `track` calls in an unchecked state appends the calls,
in order, to the pending queue and changes nothing else. -/
theorem foldl_track_unchecked (calls : List (String × Props × String)) (st : AnalyticsState)
    (h : st.consentChecked = false) :
    calls.foldl (fun s c => track s c.1 c.2.1 c.2.2) st =
      { st with eventQueue := st.eventQueue ++ calls.map (fun c => (c.1, c.2.1)) } := by
  induction calls generalizing st with
  | nil => simp
  | cons c cs ih =>
    rw [List.foldl_cons, track_unchecked _ _ _ _ h]
    rw [ih _ (by simp [h])]
    simp

/-- Any payload `track` validates is well-formed. -/
theorem trackPayload_valid (a s ts n : String) (p : Props) (pay : Props)
    (h : trackPayload a s ts n p = some pay) : deliveredValid pay = true := by
  unfold trackPayload at h
  cases hA : ANALYTICS_EVENTS n with
  | none => rw [hA] at h; exact absurd h (by simp)
  | some schema =>
    rw [hA] at h
    by_cases hf : (schema.required.filter
        (fun f => !(hasKey (mkPayload a n ts s p) f))).length > 0
    · simp only [hf, if_true] at h
      exact absurd h (by simp)
    · simp only [hf, if_false] at h
      have hpay : pay = mkPayload a n ts s p := by
        simpa using h.symm
      subst hpay
      have hnil : schema.required.filter
          (fun f => !(hasKey (mkPayload a n ts s p) f)) = [] := by
        have := Nat.eq_zero_of_not_pos hf
        exact List.length_eq_zero.mp this
      have hall : ∀ f ∈ schema.required, hasKey (mkPayload a n ts s p) f = true := by
        intro f hfm
        have := List.filter_eq_nil_iff.mp hnil f hfm
        simpa using this
      unfold deliveredValid
      rw [lookup_event_mkPayload]
      simp only [hA]
      simp [hasKey_mkPayload, List.all_eq_true, hall]
      intro f hfm
      have hh := hall f hfm
      rw [hasKey_mkPayload] at hh
      simpa using hh

theorem trackPayload_consent_updated (a s ts : String) :
    trackPayload a s ts "consent_updated" [("analytics_enabled", JVal.bool true)] =
      some (mkPayload a "consent_updated" ts s [("analytics_enabled", JVal.bool true)]) := rfl

theorem trackPayload_page_view (a s ts pp rf : String) :
    trackPayload a s ts "page_view" [("page_path", JVal.str pp), ("referrer", JVal.str rf)] =
      some (mkPayload a "page_view" ts s
        [("page_path", JVal.str pp), ("referrer", JVal.str rf)]) := rfl

/-- A grant decision from the undetermined state: the tracker becomes
enabled, sends its own `consent_updated`, then drains the queue in FIFO
order through validation and clears it. -/
theorem setConsent_grant_from_undetermined (st : AnalyticsState) (ts : String)
    (h1 : st.consentChecked = false) (h2 : st.enabled = false) :
    setConsent st (some true) ts =
      { st with
          enabled := true,
          consentChecked := true,
          eventQueue := [],
          delivered := st.delivered ++
            (mkPayload st.persona "consent_updated" ts st.sessionId
                [("analytics_enabled", JVal.bool true)] ::
              st.eventQueue.filterMap
                (fun e => trackPayload st.persona st.sessionId ts e.1 e.2)) } := by
  obtain ⟨pe, la, si, ss, ux, pv, en, q, cc, d⟩ := st
  simp only at h1 h2
  subst h1; subst h2
  unfold setConsent
  simp only [Option.getD_some, Bool.not_false, if_true]
  rw [track_checked _ _ _ _ rfl]
  simp only [trackPayload_consent_updated, if_true, Option.toList_some]
  cases q with
  | nil => simp
  | cons e q =>
    simp only [List.isEmpty_cons, Bool.not_false, Bool.and_self, if_true]
    rw [drain_foldl _ _ _ rfl rfl]
    simp

/-- `init` with granted consent from the undetermined state: drain the
queue, clear it, then track the initial `page_view`. -/
theorem init_grant_from_undetermined (st : AnalyticsState) (ts pp rf : String)
    (h1 : st.consentChecked = false) (h2 : st.enabled = false) :
    init st (some true) ts pp rf =
      { st with
          enabled := true,
          consentChecked := true,
          eventQueue := [],
          delivered := st.delivered ++
            (st.eventQueue.filterMap
                (fun e => trackPayload st.persona st.sessionId ts e.1 e.2) ++
              [mkPayload st.persona "page_view" ts st.sessionId
                [("page_path", JVal.str pp), ("referrer", JVal.str rf)]]) } := by
  obtain ⟨pe, la, si, ss, ux, pv, en, q, cc, d⟩ := st
  simp only at h1 h2
  subst h1; subst h2
  unfold init
  simp only [Option.getD_some, Bool.not_false, if_true]
  cases q with
  | nil =>
    simp only [List.isEmpty_nil, Bool.not_true, Bool.and_false, Bool.false_eq_true, if_false]
    rw [track_checked _ _ _ _ rfl]
    simp [trackPayload_page_view]
  | cons e q =>
    simp only [List.isEmpty_cons, Bool.not_false, Bool.and_self, if_true]
    rw [drain_foldl _ _ _ rfl rfl]
    rw [track_checked _ _ _ _ rfl]
    simp [trackPayload_page_view]

/-- A denial through `setConsent` while not enabled: the queue is cleared
and nothing is delivered. -/
theorem setConsent_deny_not_enabled (st : AnalyticsState) (ts : String)
    (h2 : st.enabled = false) :
    setConsent st (some false) ts =
      { st with enabled := false, consentChecked := true, eventQueue := [] } := by
  obtain ⟨pe, la, si, ss, ux, pv, en, q, cc, d⟩ := st
  simp only at h2
  subst h2
  unfold setConsent
  simp

/-- `init` with denied or absent consent: the queue is cleared and
nothing is delivered, whatever the prior state. -/
theorem init_deny (st : AnalyticsState) (c : Option Bool) (ts pp rf : String)
    (hc : c.getD false = false) :
    init st c ts pp rf =
      { st with enabled := false, consentChecked := true, eventQueue := [] } := by
  obtain ⟨pe, la, si, ss, ux, pv, en, q, cc, d⟩ := st
  unfold init
  rw [hc]
  simp

/-- The payload of the final `consent_updated` sent directly by
`setConsent` on a grant-to-deny transition is well-formed. -/
theorem deliveredValid_final_consent (a ts s : String) :
    deliveredValid [("persona", JVal.str a), ("event", JVal.str "consent_updated"),
      ("timestamp", JVal.str ts), ("session_id", JVal.str s),
      ("analytics_enabled", JVal.bool false)] = true := rfl

theorem track_allValid (st : AnalyticsState) (n : String) (p : Props) (ts : String)
    (h : AllValid st) : AllValid (track st n p ts) := by
  by_cases hc : st.consentChecked = true
  · rw [track_checked _ _ _ _ hc]
    intro pay hmem
    rcases List.mem_append.mp hmem with hin | hnew
    · exact h pay hin
    · by_cases he : st.enabled = true
      · rw [if_pos he] at hnew
        cases hpe : trackPayload st.persona st.sessionId ts n p with
        | none => rw [hpe] at hnew; simp at hnew
        | some q =>
          rw [hpe] at hnew
          simp at hnew
          subst hnew
          exact trackPayload_valid _ _ _ _ _ _ hpe
      · rw [if_neg he] at hnew
        simp at hnew
  · rw [track_unchecked _ _ _ _ (by simpa using hc)]
    exact h

theorem foldl_track_allValid (ts : String) (q : List (String × Props))
    (st : AnalyticsState) (h : AllValid st) :
    AllValid (q.foldl (fun s e => track s e.1 e.2 ts) st) := by
  induction q generalizing st with
  | nil => exact h
  | cons e q ih => exact ih _ (track_allValid _ _ _ _ h)

theorem setConsent_allValid (st : AnalyticsState) (c : Option Bool) (ts : String)
    (h : AllValid st) : AllValid (setConsent st c ts) := by
  unfold setConsent
  cases hc : c.getD false
  · simp only [Bool.false_eq_true, if_false]
    by_cases hw : st.enabled = true
    · rw [if_pos hw]
      intro pay hmem
      rcases List.mem_append.mp hmem with hin | hnew
      · exact h pay hin
      · simp at hnew
        subst hnew
        exact deliveredValid_final_consent _ _ _
    · rw [if_neg hw]
      exact h
  · simp only [if_true]
    have h2 : AllValid (track { st with enabled := true, consentChecked := true }
        "consent_updated" [("analytics_enabled", JVal.bool true)] ts) :=
      track_allValid _ _ _ _ h
    split
    · intro pay hmem
      exact foldl_track_allValid _ _ _ h2 pay hmem
    · exact h2

theorem init_allValid (st : AnalyticsState) (c : Option Bool) (ts pp rf : String)
    (h : AllValid st) : AllValid (init st c ts pp rf) := by
  unfold init
  have key : ∀ st2 : AnalyticsState, AllValid st2 →
      AllValid (if st2.enabled then
        track st2 "page_view"
          [("page_path", JVal.str pp), ("referrer", JVal.str rf)] ts
      else st2) := by
    intro st2 h2
    split
    · exact track_allValid _ _ _ _ h2
    · exact h2
  have h1 : AllValid { st with consentChecked := true, enabled := c.getD false } := h
  apply key
  split
  · intro pay hmem
    exact foldl_track_allValid ts _ _ h1 pay hmem
  · split
    · exact h
    · exact h

theorem endSession_allValid (st : AnalyticsState) (nowMs : Nat) (ts : String)
    (h : AllValid st) : AllValid (endSession st nowMs ts) := by
  unfold endSession
  split
  · exact h
  · exact track_allValid _ _ _ _ h

theorem runOp_allValid (st : AnalyticsState) (op : AOp) (h : AllValid st) :
    AllValid (runOp st op) := by
  cases op with
  | init c ts pp rf => exact init_allValid _ _ _ _ _ h
  | setConsent c ts => exact setConsent_allValid _ _ _ h
  | track n p ts => exact track_allValid _ _ _ _ h
  | endSession now ts => exact endSession_allValid _ _ _ h
  | incrementUXTurns => exact h
  | setLanguage l => exact h

theorem run_allValid (st : AnalyticsState) (ops : List AOp) (h : AllValid st) :
    AllValid (run st ops) := by
  induction ops generalizing st with
  | nil => exact h
  | cons op ops ih => exact ih _ (runOp_allValid _ _ h)

theorem mkAnalytics_allValid (lang sid : String) (now : Nat) :
    AllValid (mkAnalytics lang sid now) := by
  intro p hp
  simp [mkAnalytics] at hp

/-- Draining through `track` in a checked state leaves the queue, the
consent flag and the enabled flag unchanged. -/
theorem foldl_track_fields (ts : String) (q : List (String × Props)) (st : AnalyticsState)
    (hc : st.consentChecked = true) :
    (q.foldl (fun s e => track s e.1 e.2 ts) st).eventQueue = st.eventQueue ∧
      (q.foldl (fun s e => track s e.1 e.2 ts) st).consentChecked = true ∧
      (q.foldl (fun s e => track s e.1 e.2 ts) st).enabled = st.enabled := by
  induction q generalizing st with
  | nil => exact ⟨rfl, hc, rfl⟩
  | cons e q ih =>
    rw [List.foldl_cons, track_checked _ _ _ _ hc]
    exact ih _ hc

/-- After any `setConsent` on a reachable state, the consent decision is
recorded and the queue is empty. -/
theorem setConsent_fields (st : AnalyticsState) (c : Option Bool) (ts : String)
    (h : QInv st) :
    (setConsent st c ts).eventQueue = [] ∧ (setConsent st c ts).consentChecked = true := by
  obtain ⟨hq, he⟩ := h
  obtain ⟨pe, la, si, ss, ux, pv, en, q, cc, d⟩ := st
  simp only at hq he
  unfold setConsent
  cases hc : c.getD false
  · cases en <;> simp [send]
  · cases en with
    | true =>
      have hcc : cc = true := he rfl
      subst hcc
      have hq0 : q = [] := hq rfl
      subst hq0
      dsimp only
      rw [track_checked _ _ _ _ rfl]
      simp
    | false =>
      dsimp only
      rw [track_checked _ _ _ _ rfl]
      cases q with
      | nil => simp
      | cons e q =>
        simp only [Bool.not_false, List.isEmpty_cons, Bool.and_self, if_true]
        constructor
        · simp
        · exact (foldl_track_fields ts _ _ rfl).2.1

/-- After any `init`, the consent decision is recorded and the queue is
empty. -/
theorem init_fields (st : AnalyticsState) (c : Option Bool) (ts pp rf : String) :
    (init st c ts pp rf).eventQueue = [] ∧ (init st c ts pp rf).consentChecked = true := by
  obtain ⟨pe, la, si, ss, ux, pv, en, q, cc, d⟩ := st
  unfold init
  have key : ∀ st2 : AnalyticsState, st2.consentChecked = true → st2.eventQueue = [] →
      ((if st2.enabled then
          track st2 "page_view"
            [("page_path", JVal.str pp), ("referrer", JVal.str rf)] ts
        else st2).eventQueue = [] ∧
        (if st2.enabled then
          track st2 "page_view"
            [("page_path", JVal.str pp), ("referrer", JVal.str rf)] ts
        else st2).consentChecked = true) := by
    intro st2 h2 hq2
    split
    · rw [track_checked _ _ _ _ h2]
      exact ⟨hq2, h2⟩
    · exact ⟨hq2, h2⟩
  cases he : c.getD false
  · simp only [he]
    apply key _ rfl
    simp
  · simp only [he]
    cases q with
    | nil =>
      apply key _ rfl
      simp
    | cons e q =>
      simp only [List.isEmpty_cons, Bool.not_false, Bool.and_self, if_true]
      have h2 := (foldl_track_fields ts (e :: q)
        (⟨pe, la, si, ss, ux, pv, true, e :: q, true, d⟩ : AnalyticsState) rfl).2.1
      exact key
        { List.foldl (fun s x => track s x.1 x.2 ts)
            (⟨pe, la, si, ss, ux, pv, true, e :: q, true, d⟩ : AnalyticsState) (e :: q)
          with eventQueue := [] } h2 rfl

theorem track_QInv (st : AnalyticsState) (n : String) (p : Props) (ts : String)
    (h : QInv st) : QInv (track st n p ts) := by
  obtain ⟨hq, he⟩ := h
  by_cases hc : st.consentChecked = true
  · rw [track_checked _ _ _ _ hc]
    exact ⟨fun _ => hq hc, fun _ => hc⟩
  · have hcf : st.consentChecked = false := by simpa using hc
    rw [track_unchecked _ _ _ _ hcf]
    constructor
    · intro habs
      simp only at habs
      rw [hcf] at habs
      exact absurd habs (by simp)
    · intro hen
      simp only at hen
      exact absurd (he hen) (by simp [hcf])

theorem runOp_QInv (st : AnalyticsState) (op : AOp) (h : QInv st) :
    QInv (runOp st op) := by
  cases op with
  | init c ts pp rf =>
    obtain ⟨h1, h2⟩ := init_fields st c ts pp rf
    exact ⟨fun _ => h1, fun _ => h2⟩
  | setConsent c ts =>
    obtain ⟨h1, h2⟩ := setConsent_fields st c ts h
    exact ⟨fun _ => h1, fun _ => h2⟩
  | track n p ts => exact track_QInv _ _ _ _ h
  | endSession now ts =>
    obtain ⟨hq, he⟩ := h
    show QInv (endSession st now ts)
    unfold endSession
    split
    · exact ⟨hq, he⟩
    · rename_i hen
      have hent : st.enabled = true := by
        revert hen
        cases st.enabled <;> simp
      have hc := he hent
      rw [track_checked _ _ _ _ hc]
      exact ⟨fun _ => hq hc, fun _ => hc⟩
  | incrementUXTurns => exact h
  | setLanguage l => exact h

theorem run_QInv (st : AnalyticsState) (ops : List AOp) (h : QInv st) :
    QInv (run st ops) := by
  induction ops generalizing st with
  | nil => exact h
  | cons op ops ih => exact ih _ (runOp_QInv _ _ h)

theorem mkAnalytics_QInv (lang sid : String) (now : Nat) :
    QInv (mkAnalytics lang sid now) := by
  constructor
  · intro h
    simp [mkAnalytics] at h
  · intro h
    simp [mkAnalytics] at h

/-- A schema-valid call is delivered by `track` as its merged payload. -/
theorem callValid_trackPayload (a s ts n : String) (p : Props)
    (h : callValid (n, p) = true) :
    trackPayload a s ts n p = some (mkPayload a n ts s p) := by
  unfold callValid at h
  unfold trackPayload
  cases hA : ANALYTICS_EVENTS n with
  | none => rw [hA] at h; simp at h
  | some schema =>
    rw [hA] at h
    dsimp only at h ⊢
    simp only [List.all_eq_true] at h
    have hnil : schema.required.filter
        (fun f => !(hasKey (mkPayload a n ts s p) f)) = [] := by
      apply List.filter_eq_nil_iff.mpr
      intro f hf
      have hh := h f hf
      rw [hasKey_mkPayload]
      simp only at hh
      simp [hh]
    rw [hnil]
    simp

/-- Draining an all-valid queue delivers exactly the merged payloads. -/
theorem filterMap_trackPayload_eq_map (a s ts : String)
    (calls : List (String × Props × String))
    (hv : ∀ c ∈ calls, callValid (c.1, c.2.1) = true) :
    (calls.map (fun c => (c.1, c.2.1))).filterMap
        (fun e => trackPayload a s ts e.1 e.2) =
      calls.map (fun c => mkPayload a c.1 ts s c.2.1) := by
  induction calls with
  | nil => rfl
  | cons c cs ih =>
    simp only [List.map_cons, List.filterMap_cons]
    rw [callValid_trackPayload a s ts c.1 c.2.1 (hv c (by simp))]
    rw [ih (fun x hx => hv x (by simp [hx]))]

end Analytics

end Arvyam

open Arvyam.Analytics Arvyam.I18n Arvyam.ConsentBanner Arvyam.Session

/-- Claim C1: every event payload the tracker delivers — through `track`,
through the queue drain on a consent grant, through the final
grant-to-deny `consent_updated`, or through `endSession` — contains the
persona, event name, timestamp and session-id keys plus every property
the event's schema entry marks required; a payload missing any required
property is never delivered. Formally: after any operation sequence on a
fresh tracker, every payload in the delivered log satisfies
`deliveredValid`. -/
theorem C1_delivered_payloads_schema_complete (lang sid : String) (now : Nat)
    (ops : List AOp) (p : Props)
    (hp : p ∈ (run (mkAnalytics lang sid now) ops).delivered) :
    deliveredValid p = true :=
  run_allValid _ _ (mkAnalytics_allValid lang sid now) p hp

theorem C1_witness :
    deliveredValid
      (mkPayload "ARVY" "consent_updated" "t" "s" [("analytics_enabled", JVal.bool true)]) =
      true :=
  C1_delivered_payloads_schema_complete "en" "s" 0 [AOp.setConsent (some true) "t"] _
    (by decide)

/-- Claim C2: for every sequence of `track` calls made while consent is
undetermined (all schema-valid), the events delivered after the consent
decision — `setConsent` with analytics granted, or `init` with analytics
consent — appear in exactly the order of the `track` calls: the queue is
FIFO and the flush preserves submission order. `setConsent` prepends the
tracker's own `consent_updated`; `init` appends the initial `page_view`. -/
theorem C2_flush_preserves_order (lang sid : String) (now : Nat)
    (calls : List (String × Props × String)) (ts pp rf : String)
    (hv : ∀ c ∈ calls, callValid (c.1, c.2.1) = true) :
    (setConsent
        (calls.foldl (fun s c => track s c.1 c.2.1 c.2.2) (mkAnalytics lang sid now))
        (some true) ts).delivered =
      mkPayload "ARVY" "consent_updated" ts sid [("analytics_enabled", JVal.bool true)] ::
        calls.map (fun c => mkPayload "ARVY" c.1 ts sid c.2.1) ∧
    (init
        (calls.foldl (fun s c => track s c.1 c.2.1 c.2.2) (mkAnalytics lang sid now))
        (some true) ts pp rf).delivered =
      calls.map (fun c => mkPayload "ARVY" c.1 ts sid c.2.1) ++
        [mkPayload "ARVY" "page_view" ts sid
          [("page_path", JVal.str pp), ("referrer", JVal.str rf)]] := by
  have hst := foldl_track_unchecked calls (mkAnalytics lang sid now) rfl
  constructor
  · rw [hst, setConsent_grant_from_undetermined _ _ rfl rfl]
    dsimp only [mkAnalytics, List.nil_append]
    rw [filterMap_trackPayload_eq_map _ _ _ _ hv]
  · rw [hst, init_grant_from_undetermined _ _ _ _ rfl rfl]
    dsimp only [mkAnalytics, List.nil_append]
    rw [filterMap_trackPayload_eq_map _ _ _ _ hv]

theorem C2_witness :
    (setConsent
        ([(("product_clicked" : String),
            ([("sku_id", JVal.str "BQ-001"), ("card_position", JVal.num 1)] : Props),
            ("t1" : String)),
          (("language_changed" : String),
            ([("from_lang", JVal.str "en"), ("to_lang", JVal.str "hi")] : Props),
            ("t2" : String))].foldl
          (fun s c => track s c.1 c.2.1 c.2.2) (mkAnalytics "en" "sid" 0))
        (some true) "t3").delivered =
      mkPayload "ARVY" "consent_updated" "t3" "sid" [("analytics_enabled", JVal.bool true)] ::
        [(("product_clicked" : String),
            ([("sku_id", JVal.str "BQ-001"), ("card_position", JVal.num 1)] : Props),
            ("t1" : String)),
          (("language_changed" : String),
            ([("from_lang", JVal.str "en"), ("to_lang", JVal.str "hi")] : Props),
            ("t2" : String))].map (fun c => mkPayload "ARVY" c.1 "t3" "sid" c.2.1) :=
  (C2_flush_preserves_order "en" "sid" 0 _ "t3" "/p" "r" (by decide)).1

/-- Claim C3: for every sequence of `track` calls made while consent is
undetermined, a denial decision (`setConsent` or `init` with analytics
false) delivers none of the queued events and clears the pending queue
without delivering anything. -/
theorem C3_denial_clears_queue_without_delivery (lang sid : String) (now : Nat)
    (calls : List (String × Props × String)) (ts ts2 pp rf : String) :
    (setConsent
        (calls.foldl (fun s c => track s c.1 c.2.1 c.2.2) (mkAnalytics lang sid now))
        (some false) ts).delivered = [] ∧
    (setConsent
        (calls.foldl (fun s c => track s c.1 c.2.1 c.2.2) (mkAnalytics lang sid now))
        (some false) ts).eventQueue = [] ∧
    (init
        (calls.foldl (fun s c => track s c.1 c.2.1 c.2.2) (mkAnalytics lang sid now))
        (some false) ts2 pp rf).delivered = [] ∧
    (init
        (calls.foldl (fun s c => track s c.1 c.2.1 c.2.2) (mkAnalytics lang sid now))
        (some false) ts2 pp rf).eventQueue = [] := by
  have hst := foldl_track_unchecked calls (mkAnalytics lang sid now) rfl
  rw [hst, setConsent_deny_not_enabled _ _ rfl,
    init_deny _ (some false) ts2 pp rf rfl]
  exact ⟨rfl, rfl, rfl, rfl⟩

/-- Claim C4 counterexample: the claim says an unknown event name is never
added to the pending queue regardless of consent state, but while consent
is still undetermined `track` pushes the event to the queue before any
schema lookup: on a fresh tracker, tracking `bogus_event` queues the
event even though the name is not in the registry. -/
theorem C4_counterexample_unknown_event_queued :
    (track (mkAnalytics "en" "sid0" 0) "bogus_event" [] "t0").eventQueue =
      [("bogus_event", [])] ∧
    ANALYTICS_EVENTS "bogus_event" = none :=
  ⟨rfl, rfl⟩

/-- Claim C4 (amended): an unknown event name is never delivered; once a
consent decision has been processed (`consentChecked` true) `track` drops
it immediately with a diagnostic, leaving the state unchanged; while
consent is undetermined the call is queued unvalidated like any other
event, and it is dropped at validation when the queue drains, so every
delivered payload carries a registered event name. -/
theorem C4_amended_unknown_never_delivered :
    (∀ (st : AnalyticsState) (n : String) (p : Props) (ts : String),
        ANALYTICS_EVENTS n = none → st.consentChecked = true →
          track st n p ts = st) ∧
    (∀ (lang sid : String) (now : Nat) (ops : List AOp) (pay : Props),
        pay ∈ (run (mkAnalytics lang sid now) ops).delivered →
          ∃ nm sch, pay.lookup "event" = some (JVal.str nm) ∧
            ANALYTICS_EVENTS nm = some sch) := by
  constructor
  · intro st n p ts hA hcc
    rw [track_checked _ _ _ _ hcc]
    unfold trackPayload
    rw [hA]
    simp
  · intro lang sid now ops pay hp
    have hv := run_allValid _ _ (mkAnalytics_allValid lang sid now) pay hp
    unfold deliveredValid at hv
    simp only [Bool.and_eq_true] at hv
    obtain ⟨-, h2⟩ := hv
    cases hl : pay.lookup "event" with
    | none => rw [hl] at h2; simp at h2
    | some v =>
      rw [hl] at h2
      cases v with
      | str nm =>
        dsimp only at h2
        have hs : (ANALYTICS_EVENTS nm).isSome = true := by
          by_contra hni
          rw [Option.not_isSome_iff_eq_none.mp hni] at h2
          simp at h2
        obtain ⟨sch, hA⟩ := Option.isSome_iff_exists.mp hs
        exact ⟨nm, sch, rfl, hA⟩
      | num m => simp at h2
      | bool b => simp at h2

theorem C4_witness :
    track { mkAnalytics "en" "s" 0 with consentChecked := true } "bogus_event" [] "t" =
      { mkAnalytics "en" "s" 0 with consentChecked := true } ∧
    (∃ nm sch,
      (mkPayload "ARVY" "consent_updated" "t" "s"
          [("analytics_enabled", JVal.bool true)]).lookup "event" =
        some (JVal.str nm) ∧ ANALYTICS_EVENTS nm = some sch) :=
  ⟨C4_amended_unknown_never_delivered.1 _ "bogus_event" [] "t" rfl rfl,
   C4_amended_unknown_never_delivered.2 "en" "s" 0 [AOp.setConsent (some true) "t"] _
    (by decide)⟩

/-- Claim C10: once a consent decision has been processed
(`consentChecked` is true after some sequence of operations on a fresh
tracker), the pending event queue is empty — every branch of `init` and
`setConsent` clears it, and `track` only queues while consent is
unchecked. -/
theorem C10_queue_empty_once_checked (lang sid : String) (now : Nat) (ops : List AOp)
    (h : (run (mkAnalytics lang sid now) ops).consentChecked = true) :
    (run (mkAnalytics lang sid now) ops).eventQueue = [] :=
  (run_QInv _ _ (mkAnalytics_QInv lang sid now)).1 h

theorem C10_witness :
    (run (mkAnalytics "en" "s" 0) [AOp.setConsent (some true) "t"]).eventQueue = [] :=
  C10_queue_empty_once_checked "en" "s" 0 [AOp.setConsent (some true) "t"] (by decide)

/-- Claim C5 counterexample: the claim says that when the persistence
write fails during `saveConsent`, subscribers (the `consent-changed`
event and the `onConsentChange` callback) are still notified. In the
code the event dispatch and the callback sit inside the same `try` block
after `localStorage.setItem`, so a throwing write skips them: at this
concrete input the record is built but neither notification happens. -/
theorem C5_counterexample_storage_failure_skips_notification :
    (saveConsent true "2026-01-01T00:00:00.000Z" true true).record =
      ⟨true, true, "2026-01-01T00:00:00.000Z"⟩ ∧
    (saveConsent true "2026-01-01T00:00:00.000Z" true true).consentChangedDispatched =
      false ∧
    (saveConsent true "2026-01-01T00:00:00.000Z" true true).onConsentChangeCalled =
      false :=
  ⟨rfl, rfl, rfl⟩

/-- Claim C5 (amended): if the persistence write throws during
`saveConsent`, the error is caught and nothing propagates, and the new
consent record is still constructed (functional always true, the
requested analytics flag, the current timestamp) — but every step after
the write is skipped: the cookie mirror is not set, the
`consent-changed` event is not dispatched and the `onConsentChange`
callback is not invoked, so in-session subscribers are not notified. -/
theorem C5_amended_storage_failure_keeps_record_skips_subscribers
    (analytics : Bool) (now : String) (hasCallback : Bool) :
    saveConsent analytics now hasCallback true =
      { record := ⟨true, analytics, now⟩, storedToLocalStorage := false,
        cookieSet := false, consentChangedDispatched := false,
        onConsentChangeCalled := false } := rfl

/-- Claim C6: at most one bundle fetch per locale code is in flight at
any moment. Starting with `lang` uncached and not loading, the first
`loadStringbank` issues exactly one fetch and records the in-flight
marker; a second call while the load is pending returns the existing
pending result without issuing another request or changing the state;
fulfilment caches the bundle and removes the marker; rejection removes
the marker and leaves the cache untouched — a failure is never cached. -/
theorem C6_fetch_dedup_success_failure (st : LoaderState) (lang : String) (b : BVal)
    (h1 : st.cache lang = none) (h2 : st.loading lang = false) :
    (loadStringbank st lang).1 = LoadOutcome.fetchStarted ∧
    (loadStringbank st lang).2.fetches = st.fetches ++ [lang] ∧
    (loadStringbank st lang).2.loading lang = true ∧
    (loadStringbank (loadStringbank st lang).2 lang).1 = LoadOutcome.pendingExisting ∧
    (loadStringbank (loadStringbank st lang).2 lang).2 = (loadStringbank st lang).2 ∧
    (resolveSuccess (loadStringbank st lang).2 lang b).cache lang = some b ∧
    (resolveSuccess (loadStringbank st lang).2 lang b).loading lang = false ∧
    (resolveFailure (loadStringbank st lang).2 lang).cache = st.cache ∧
    (resolveFailure (loadStringbank st lang).2 lang).loading lang = false := by
  have hload : loadStringbank st lang =
      (LoadOutcome.fetchStarted,
        { st with
            loading := fun l => if l == lang then true else st.loading l,
            fetches := st.fetches ++ [lang] }) := by
    unfold loadStringbank
    rw [h1, h2]
    simp
  rw [hload]
  refine ⟨rfl, rfl, by simp, ?_, ?_, by simp [resolveSuccess], by simp [resolveSuccess],
    rfl, by simp [resolveFailure]⟩
  · unfold loadStringbank
    simp [h1]
  · unfold loadStringbank
    simp [h1]

theorem C6_witness :
    (loadStringbank (⟨fun _ => none, fun _ => false, []⟩ : LoaderState) "hi").1 =
      LoadOutcome.fetchStarted ∧
    (loadStringbank
        (loadStringbank (⟨fun _ => none, fun _ => false, []⟩ : LoaderState) "hi").2
        "hi").1 = LoadOutcome.pendingExisting ∧
    (resolveFailure
        (loadStringbank (⟨fun _ => none, fun _ => false, []⟩ : LoaderState) "hi").2
        "hi").cache = fun _ => none := by
  have h := C6_fetch_dedup_success_failure
    (⟨fun _ => none, fun _ => false, []⟩ : LoaderState) "hi" (BVal.str "x") rfl rfl
  exact ⟨h.1, h.2.2.2.1, h.2.2.2.2.2.2.2.1⟩

/-- Claim C7: when the requested locale's bundle loads but lacks the
dotted key, and the locale is not the default `en`, `t` returns the
default bundle's value with interpolation applied when `en` resolves the
key; when neither bundle resolves the key (including the `lang = en`
case), `t` returns the literal key string. -/
theorem C7_fallback_chain (key lang : String) (vars : List (String × String))
    (sb esb tr : BVal) :
    (getNestedValue sb key = none → lang ≠ "en" → getNestedValue esb key = some tr →
      t key lang vars (some sb) (some esb) = interpolate tr vars) ∧
    (getNestedValue sb key = none → getNestedValue esb key = none →
      t key lang vars (some sb) (some esb) = BVal.str key) := by
  constructor
  · intro h1 h2 h3
    unfold t
    dsimp only
    simp only [h1, if_pos h2, h3]
  · intro h1 h2
    unfold t
    dsimp only
    simp only [h1]
    by_cases he : lang = "en"
    · rw [if_neg (by simp [he])]
    · rw [if_pos he]
      simp only [h2]

theorem C7_witness :
    t "missing.key" "hi" [] (some (BVal.obj []))
        (some (BVal.obj [("missing", BVal.obj [("key", BVal.str "EN value")])])) =
      interpolate (BVal.str "EN value") [] ∧
    t "missing.key" "hi" [] (some (BVal.obj [])) (some (BVal.obj [])) =
      BVal.str "missing.key" := by
  have h := C7_fallback_chain "missing.key" "hi" [] (BVal.obj [])
    (BVal.obj [("missing", BVal.obj [("key", BVal.str "EN value")])]) (BVal.str "EN value")
  have h2 := C7_fallback_chain "missing.key" "hi" [] (BVal.obj [])
    (BVal.obj []) (BVal.str "unused")
  exact ⟨h.1 rfl (by decide) rfl, h2.2 rfl rfl⟩

/-- Claim C8 counterexample: the claim says that when the fetch for the
requested locale fails, `t` falls back to the default locale's bundle
and returns its value when present. In the code a rejected
`loadStringbank(lang)` transfers control to the `catch`, which returns
the raw key immediately without consulting the default bundle: with the
`hi` load failed and an `en` bundle that has the key, `t` returns the
key, not the `en` value. -/
theorem C8_counterexample_load_failure_skips_default_fallback :
    t "greet" "hi" [] none (some (BVal.obj [("greet", BVal.str "Hello")])) =
      BVal.str "greet" ∧
    getNestedValue (BVal.obj [("greet", BVal.str "Hello")]) "greet" =
      some (BVal.str "Hello") ∧
    t "greet" "hi" [] none (some (BVal.obj [("greet", BVal.str "Hello")])) ≠
      interpolate (BVal.str "Hello") [] := by
  refine ⟨rfl, rfl, fun h => ?_⟩
  injection h with hs
  exact absurd hs (by decide)

/-- Claim C8 (amended): when the bundle load for the requested locale
fails, `t` catches the rejection and returns the raw key to the caller,
without resolving against the default locale's bundle; a load failure
never throws past `t`. -/
theorem C8_amended_load_failure_returns_key (key lang : String)
    (vars : List (String × String)) (enLoad : Option BVal) :
    t key lang vars none enLoad = BVal.str key := rfl

/-- Claim C9 counterexample: the claim says the session id is built from
128 bits drawn from the cryptographic source, but the code fills a
`Uint32Array(2)` — only two 32-bit words. With two word streams that
agree on words 0 and 1 but differ on words 2 and 3, the generated ids
are identical: bits 64–127 of the source never influence the id, so it
is not built from 128 bits. -/
theorem C9_counterexample_id_insensitive_beyond_64_bits :
    generateSessionId 1700000000000 (some fun i => i + 1) (fun _ => 0) =
      generateSessionId 1700000000000 (some fun i => if i < 2 then i + 1 else 0)
        (fun _ => 0) ∧
    (fun i => i + 1 : Nat → Nat) 2 ≠ (fun i => if i < 2 then i + 1 else 0 : Nat → Nat) 2 ∧
    (fun i => i + 1 : Nat → Nat) 3 ≠ (fun i => if i < 2 then i + 1 else 0 : Nat → Nat) 3 :=
  ⟨rfl, by decide, by decide⟩

/-- Claim C9 (amended): when the cryptographic source is available,
`generateSessionId` draws exactly two 32-bit words — 64 bits, not 128 —
so the id is fully determined by words 0 and 1 of the source (and does
not consult the non-cryptographic fallback); when the source is
unavailable, the id is determined by the first nine base-36 digits of
the `Math.random` fallback value. -/
theorem C9_amended_id_uses_64_bits (now : Nat) (w w' d d' : Nat → Nat)
    (h0 : w 0 = w' 0) (h1 : w 1 = w' 1) :
    generateSessionId now (some w) d = generateSessionId now (some w') d' ∧
    ∀ e e' : Nat → Nat, (∀ i, i < 9 → e i = e' i) →
      generateSessionId now none e = generateSessionId now none e' := by
  constructor
  · unfold generateSessionId
    dsimp only
    rw [h0, h1]
  · intro e e' he
    unfold generateSessionId
    dsimp only
    have hmap : (List.range 9).map (fun i => base36Digit (e i % 36)) =
        (List.range 9).map (fun i => base36Digit (e' i % 36)) := by
      apply List.map_congr_left
      intro i hi
      rw [he i (List.mem_range.mp hi)]
    rw [hmap]

theorem C9_witness :
    generateSessionId 5 (some fun i => i) (fun _ => 0) =
      generateSessionId 5 (some fun i => if i < 2 then i else 42) (fun _ => 1) :=
  (C9_amended_id_uses_64_bits 5 _ _ _ _ (by decide) (by decide)).1
